import Mathlib

/-!
Shallow embedding of the Constraint-Optimization-Reasoner verification core:
`src/format_utils.py` (`parse_output`), `src/verifiers.py` (`Verifier._parse_problem`,
`Verifier._parse_solution`, `Verifier.verify_feasibility`, `Verifier.verify_optimality`,
`Verifier.verify_comprehensive`), `src/validation.py`
(`ProblemValidator.validate_problem_text`) and `src/inference_engine.py`
(`InferenceEngine.solve`).

Modelling conventions:
- Python strings are Lean `String`s (both indexed by characters).
- Python exceptions that can escape a function are an `Except` error value;
  Python functions that catch all internal exceptions are total.
- JSON numbers are modelled as integers (the repository's problem encodings use
  integer weights/values; floating point is out of scope of the embedding).
- `MemoryError` during DP-table allocation and the SIGALRM timeout are not
  modelled: the embedding computes with unbounded memory and time.
-/

namespace COR

/-- Python whitespace characters (`str.isspace` / regex `\s`, ASCII range),
used by `\s*` in the capacity/items regexes and by `str.strip()`. -/
def isPySpace (c : Char) : Bool :=
  c = ' ' || c = '\t' || c = '\n' || c = '\r' || c = '\x0b' || c = '\x0c'

/-- ASCII decimal digit test (regex `\d`). -/
def isDigitCh (c : Char) : Bool :=
  '0' ≤ c && c ≤ '9'

/-- First index (from the head) at which `pat` occurs as a contiguous
sublist of `s`; `none` when there is no occurrence.  This is the position
`re.search` uses for a plain-text pattern. -/
def findSub (pat : List Char) : List Char → Option Nat
  | [] => if pat.isPrefixOf ([] : List Char) then some 0 else none
  | c :: rest =>
    if pat.isPrefixOf (c :: rest) then some 0
    else (findSub pat rest).map (· + 1)

/-- `pat` occurs in `s` starting at index `i`. -/
def occursAt (pat s : List Char) (i : Nat) : Prop :=
  pat.isPrefixOf (s.drop i)

instance (pat s : List Char) (i : Nat) : Decidable (occursAt pat s i) := by
  unfold occursAt; infer_instance

/-- `str.strip()`: remove leading and trailing Python whitespace. -/
def pyStrip (s : List Char) : List Char :=
  ((s.dropWhile isPySpace).reverse.dropWhile isPySpace).reverse

/-- The opening delimiter `<tag>` of a tagged section. -/
def openTag (tag : String) : List Char :=
  '<' :: tag.toList ++ ['>']

/-- The closing delimiter `</tag>` of a tagged section. -/
def closeTag (tag : String) : List Char :=
  '<' :: '/' :: tag.toList ++ ['>']

/-- Leftmost-shortest match of `re.search(r"<tag>(.*?)</tag>", text, re.DOTALL)`:
the content between the first `<tag>` and the first `</tag>` after it.
Returns `none` when the regex has no match. -/
def extractTagRaw (tag : String) (s : List Char) : Option (List Char) :=
  match findSub (openTag tag) s with
  | none => none
  | some i =>
    match findSub (closeTag tag) (s.drop (i + (openTag tag).length)) with
    | none => none
    | some j => some ((s.drop (i + (openTag tag).length)).take j)

/-- One section of `parse_output`: the matched group, stripped; `none` when
the delimiters are missing. -/
def extractSection (tag : String) (t : String) : Option String :=
  (extractTagRaw tag t.toList).map (fun l => String.mk (pyStrip l))

/-- The dictionary returned by `format_utils.parse_output`
(keys `parse`, `reasoning`, `solution`, `feasibility_certificate`,
`optimality_certificate`, `final`, `answer`; values `None` when the tag is
missing). -/
structure ParsedOutput where
  parse : Option String
  reasoning : Option String
  solution : Option String
  feasibility_certificate : Option String
  optimality_certificate : Option String
  final : Option String
  answer : Option String
deriving Repr, DecidableEq

/-- The per-tag results of `parse_output` on an in-cap input: each section is
extracted independently from the full text. -/
def parseSections (t : String) : ParsedOutput :=
  { parse := extractSection "parse" t
    reasoning := extractSection "reasoning" t
    solution := extractSection "solution" t
    feasibility_certificate := extractSection "feasibility_certificate" t
    optimality_certificate := extractSection "optimality_certificate" t
    final := extractSection "final" t
    answer := extractSection "answer" t }

/-- `MAX_OUTPUT_LENGTH = 1024 * 1024` from `format_utils.parse_output`. -/
def MAX_OUTPUT_LENGTH : Nat := 1024 * 1024

/-- `format_utils.parse_output`: raises `ValueError` (modelled as `.error`)
for inputs above 1 MiB, otherwise returns the seven optional sections. -/
def parse_output (t : String) : Except String ParsedOutput :=
  if t.length > MAX_OUTPUT_LENGTH then
    .error ("Output text too long: " ++ toString t.length ++ " bytes (max: "
      ++ toString MAX_OUTPUT_LENGTH ++ ")")
  else
    .ok (parseSections t)

/-! ### JSON values and `json.loads`

The problem item list and the candidate list are decoded with Python's
`json.loads`.  Numbers are modelled as integers (see module header). -/

/-- A JSON value as produced by `json.loads` (numbers restricted to
integers in this embedding; object fields keep textual order, and lookup
takes the last binding, matching `json.loads` duplicate-key semantics). -/
inductive JVal where
  | jnull : JVal
  | jbool : Bool → JVal
  | jnum : Int → JVal
  | jstr : String → JVal
  | jarr : List JVal → JVal
  | jobj : List (String × JVal) → JVal
deriving Repr

/-- JSON structural whitespace accepted between tokens by `json.loads`. -/
def isJsonWs (c : Char) : Bool :=
  c = ' ' || c = '\t' || c = '\n' || c = '\r'

/-- Skip JSON whitespace. -/
def skipWs (s : List Char) : List Char :=
  s.dropWhile isJsonWs

/-- Parse the body of a JSON string after the opening quote.  Handles the
simple escapes; `\uXXXX` escapes and unescaped control characters are
rejected (the former is a modelling restriction, the latter mirrors
`json.loads`). -/
def parseJStr : Nat → List Char → Option (String × List Char)
  | 0, _ => none
  | _, [] => none
  | fuel + 1, c :: rest =>
    if c = '"' then some ("", rest)
    else if c = '\\' then
      match rest with
      | [] => none
      | e :: rest2 =>
        let ec : Option Char :=
          if e = '"' then some '"'
          else if e = '\\' then some '\\'
          else if e = '/' then some '/'
          else if e = 'b' then some '\x08'
          else if e = 'f' then some '\x0c'
          else if e = 'n' then some '\n'
          else if e = 'r' then some '\r'
          else if e = 't' then some '\t'
          else none
        match ec with
        | none => none
        | some ch =>
          match parseJStr fuel rest2 with
          | some (s, rem) => some (String.mk (ch :: s.toList), rem)
          | none => none
    else if c < ' ' then none
    else
      match parseJStr fuel rest with
      | some (s, rem) => some (String.mk (c :: s.toList), rem)
      | none => none

/-- Numeric value of a list of decimal digits. -/
def digitsToNat : List Char → Nat
  | [] => 0
  | c :: rest => digitsToNat rest + c.toNat * 10 ^ rest.length - '0'.toNat * 10 ^ rest.length

/-- Parse a JSON integer (an optional minus sign followed by `0` or a
digit run without a leading zero).  A following `.`, `e` or `E` would make
the number a float, which the embedding rejects (modelling restriction). -/
def parseJNum (s : List Char) : Option (Int × List Char) :=
  let (neg, s1) : Bool × List Char :=
    match s with
    | '-' :: rest => (true, rest)
    | _ => (false, s)
  let digs := s1.takeWhile isDigitCh
  let rest := s1.drop digs.length
  if digs = [] then none
  else if digs.length > 1 && digs.headI = '0' then none
  else
    match rest with
    | '.' :: _ => none
    | 'e' :: _ => none
    | 'E' :: _ => none
    | _ =>
      let n : Int := (digitsToNat digs : Int)
      some (if neg then -n else n, rest)

mutual

/-- Recursive-descent parse of one JSON value; returns it with the
remaining input. -/
def parseJVal : Nat → List Char → Option (JVal × List Char)
  | 0, _ => none
  | fuel + 1, s =>
    match skipWs s with
    | [] => none
    | c :: rest =>
      if c = '"' then
        match parseJStr (fuel + 1) rest with
        | some (str, rem) => some (.jstr str, rem)
        | none => none
      else if c = '[' then
        match skipWs rest with
        | ']' :: rem => some (.jarr [], rem)
        | _ =>
          match parseJArr fuel rest with
          | some (xs, rem) => some (.jarr xs, rem)
          | none => none
      else if c = '{' then
        match skipWs rest with
        | '}' :: rem => some (.jobj [], rem)
        | _ =>
          match parseJObj fuel rest with
          | some (fs, rem) => some (.jobj fs, rem)
          | none => none
      else if c = 't' then
        match rest with
        | 'r' :: 'u' :: 'e' :: rem => some (.jbool true, rem)
        | _ => none
      else if c = 'f' then
        match rest with
        | 'a' :: 'l' :: 's' :: 'e' :: rem => some (.jbool false, rem)
        | _ => none
      else if c = 'n' then
        match rest with
        | 'u' :: 'l' :: 'l' :: rem => some (.jnull, rem)
        | _ => none
      else
        match parseJNum (c :: rest) with
        | some (n, rem) => some (.jnum n, rem)
        | none => none

/-- Parse the elements of a non-empty JSON array (after the `[`). -/
def parseJArr : Nat → List Char → Option (List JVal × List Char)
  | 0, _ => none
  | fuel + 1, s =>
    match parseJVal fuel s with
    | none => none
    | some (v, rem) =>
      match skipWs rem with
      | ',' :: rem2 =>
        match parseJArr fuel rem2 with
        | some (vs, rem3) => some (v :: vs, rem3)
        | none => none
      | ']' :: rem2 => some ([v], rem2)
      | _ => none

/-- Parse the members of a non-empty JSON object (after the `{`). -/
def parseJObj : Nat → List Char → Option (List (String × JVal) × List Char)
  | 0, _ => none
  | fuel + 1, s =>
    match skipWs s with
    | '"' :: rest =>
      match parseJStr fuel rest with
      | none => none
      | some (key, rem) =>
        match skipWs rem with
        | ':' :: rem2 =>
          match parseJVal fuel rem2 with
          | none => none
          | some (v, rem3) =>
            match skipWs rem3 with
            | ',' :: rem4 =>
              match parseJObj fuel rem4 with
              | some (fs, rem5) => some ((key, v) :: fs, rem5)
              | none => none
            | '}' :: rem4 => some ([(key, v)], rem4)
            | _ => none
        | _ => none
    | _ => none

end

/-- `json.loads`: parse a full JSON document, requiring only whitespace
after the value; `none` models `json.JSONDecodeError`. -/
def jsonLoads (s : String) : Option JVal :=
  match parseJVal (s.length + 1) s.toList with
  | none => none
  | some (v, rem) => if skipWs rem = [] then some v else none

/-! ### Python exception model -/

/-- The Python exceptions the verifier code can raise past a function
boundary. -/
inductive PyErr where
  | valueError : PyErr
  | keyError : String → PyErr
  | typeError : PyErr
  | indexError : PyErr
deriving Repr, DecidableEq

/-- Python subscription `v[k]` for a string key `k`: `KeyError` when a dict
lacks the key (with last-duplicate-wins lookup, as `json.loads` builds the
dict), `TypeError` when `v` is not a dict. -/
def pyGetField (v : JVal) (k : String) : Except PyErr JVal :=
  match v with
  | .jobj fs =>
    match fs.reverse.find? (fun p => p.1 = k) with
    | some p => .ok p.2
    | none => .error (.keyError k)
  | _ => .error .typeError

/-- Coerce a JSON value to a Python number usable in integer arithmetic:
ints directly, bools via `True == 1` / `False == 0` (`bool` is an `int`
subclass); anything else makes the surrounding arithmetic raise
`TypeError`. -/
def pyToInt (v : JVal) : Except PyErr Int :=
  match v with
  | .jnum n => .ok n
  | .jbool b => .ok (if b then 1 else 0)
  | _ => .error .typeError

/-- `item[k]` followed by use as a number. -/
def getNumField (item : JVal) (k : String) : Except PyErr Int :=
  match pyGetField item k with
  | .error e => .error e
  | .ok v => pyToInt v

/-! ### `Verifier._parse_problem` and `Verifier._parse_solution` -/

/-- Scan for the leftmost match of `re.search(r"Knapsack capacity:\s*(\d+)", t)`
and return `int(group(1))`: at each occurrence of the literal marker, greedy
whitespace skipping must be followed by at least one digit, else the search
resumes at the next position. -/
def findCapacity (marker : List Char) : List Char → Option Nat
  | [] => none
  | c :: rest =>
    (if marker.isPrefixOf (c :: rest) then
      let afterMarker := (c :: rest).drop marker.length
      let afterWs := afterMarker.dropWhile isPySpace
      let digs := afterWs.takeWhile isDigitCh
      if digs = [] then none else some (digitsToNat digs)
    else none).orElse (fun _ => findCapacity marker rest)

/-- Scan for the leftmost match of
`re.search(r"Available items:\s*(\[.*?\])", t, re.DOTALL)` and return
`group(1)` (the bracketed segment, brackets included): after the marker and
greedy whitespace there must be a `[`, and the non-greedy body ends at the
first later `]` (DOTALL: newlines allowed inside). -/
def findItemsSeg (marker : List Char) : List Char → Option (List Char)
  | [] => none
  | c :: rest =>
    (if marker.isPrefixOf (c :: rest) then
      let afterMarker := (c :: rest).drop marker.length
      match afterMarker.dropWhile isPySpace with
      | '[' :: body =>
        match findSub [']'] body with
        | some j => some ('[' :: body.take j ++ [']'])
        | none => none
      | _ => none
    else none).orElse (fun _ => findItemsSeg marker rest)

/-- `Verifier._parse_problem`: extract the capacity and the decoded items
array from the problem text; `none` models every logged-and-absorbed parse
failure (missing capacity marker, missing items marker, invalid JSON,
items not a list). -/
def parse_problem (problem_text : String) : Option (Nat × List JVal) :=
  match findCapacity "Knapsack capacity:".toList problem_text.toList with
  | none => none
  | some capacity =>
    match findItemsSeg "Available items:".toList problem_text.toList with
    | none => none
    | some seg =>
      match jsonLoads (String.mk seg) with
      | some (.jarr items) => some (capacity, items)
      | _ => none

/-- `Verifier._parse_solution`: decode the candidate as a JSON list of
strings; `none` on invalid JSON, a non-list, or non-string elements. -/
def parse_solution (solution_data : String) : Option (List String) :=
  match jsonLoads solution_data with
  | some (.jarr xs) =>
    if xs.all (fun v => match v with | .jstr _ => true | _ => false) then
      some (xs.filterMap (fun v => match v with | .jstr s => some s | _ => none))
    else none
  | _ => none

/-! ### Item map and accumulation loops -/

/-- `item_map = {item["name"]: item for item in items}`, kept as the raw
association list in insertion order (string lookups below take the last
binding, which is exactly the dict's overwrite semantics).  Raises
`TypeError` for a non-dict item and `KeyError` for a missing `name`. -/
def buildItemMap : List JVal → Except PyErr (List (JVal × JVal))
  | [] => .ok []
  | item :: rest =>
    match pyGetField item "name" with
    | .error e => .error e
    | .ok nameVal =>
      match buildItemMap rest with
      | .error e => .error e
      | .ok m => .ok ((nameVal, item) :: m)

/-- `name in item_map` / `item_map[name]` for a string `name`: the last
entry whose key equals the string (a non-string key never equals a Python
string). -/
def lookupName (m : List (JVal × JVal)) (n : String) : Option JVal :=
  (m.reverse.find? (fun p => match p.1 with | .jstr s => s = n | _ => false)).map (·.2)

/-- `(2**31 - 1)`, the overflow guard bound in `verify_feasibility` and
`verify_optimality`. -/
def INT31_MAX : Int := 2 ^ 31 - 1

/-- The guarded accumulation loop of `verify_feasibility` /
`verify_optimality` over field `k` (`"weight"` or `"value"`): `none` when a
selected name is unknown, the field is missing or non-numeric (the raised
`KeyError`/`TypeError` is caught and turned into `False` by the caller), or
the overflow guard trips. -/
def sumFieldGuard (m : List (JVal × JVal)) (k : String) : Int → List String → Option Int
  | acc, [] => some acc
  | acc, n :: ns =>
    match lookupName m n with
    | none => none
    | some item =>
      match getNumField item k with
      | .error _ => none
      | .ok x => if acc > INT31_MAX - x then none else sumFieldGuard m k (acc + x) ns

/-- The unguarded weight-and-value loop of `verify_comprehensive`
(lines 422–438: no overflow check there).  `.ok none` is the early
`INFEASIBLE` return for an unknown name; `.error` is a propagating
`KeyError`/`TypeError` from a missing or non-numeric field of a selected
item. -/
def sumWeightValue (m : List (JVal × JVal)) : Int → Int → List String →
    Except PyErr (Option (Int × Int))
  | w, v, [] => .ok (some (w, v))
  | w, v, n :: ns =>
    match lookupName m n with
    | none => .ok none
    | some item =>
      match getNumField item "weight" with
      | .error e => .error e
      | .ok wt =>
        match getNumField item "value" with
        | .error e => .error e
        | .ok vl => sumWeightValue m (w + wt) (v + vl) ns

/-! ### The DP reference solver -/

/-- Python list subscription `row[j]` with an `int` index: negative indices
wrap once, out-of-range raises `IndexError`. -/
def pyIndex (row : List Int) (j : Int) : Except PyErr Int :=
  if 0 ≤ j && j < (row.length : Int) then
    .ok (row.getD j.toNat 0)
  else if -(row.length : Int) ≤ j && j < 0 then
    .ok (row.getD (j + (row.length : Int)).toNat 0)
  else .error .indexError

/-- One DP row update: `dp[i][w]` for `w = 0..capacity` from row `i-1`,
with `dp[i][0]` left at its initialisation `0` (the Python inner loop
starts at `w = 1`). -/
def dpRow (capacity : Nat) (wt val : Int) (prev : List Int) : Except PyErr (List Int) :=
  (List.range (capacity + 1)).mapM (fun w =>
    if w = 0 then .ok 0
    else if wt ≤ (w : Int) then
      match pyIndex prev ((w : Int) - wt) with
      | .error e => .error e
      | .ok a =>
        match pyIndex prev (w : Int) with
        | .error e => .error e
        | .ok b => .ok (max (val + a) b)
    else pyIndex prev (w : Int))

/-- The full DP loop over the items (each iteration re-reads
`items[i-1]["weight"]` / `["value"]`, so a malformed item raises here). -/
def dpTable (capacity : Nat) : List JVal → List Int → Except PyErr (List Int)
  | [], row => .ok row
  | item :: rest, row =>
    match getNumField item "weight" with
    | .error e => .error e
    | .ok wt =>
      match getNumField item "value" with
      | .error e => .error e
      | .ok val =>
        match dpRow capacity wt val row with
        | .error e => .error e
        | .ok row2 => dpTable capacity rest row2

/-- `dp[n][capacity]` of the standard 0/1-knapsack DP of
`verify_optimality` / `verify_comprehensive`. -/
def knapsackOpt (capacity : Nat) (items : List JVal) : Except PyErr Int :=
  match dpTable capacity items (List.replicate (capacity + 1) 0) with
  | .error e => .error e
  | .ok row => pyIndex row (capacity : Int)

/-! ### `Verifier.verify_feasibility` and `Verifier.verify_optimality`

Both wrap their whole body in `try ... except Exception: return False`
(only the empty-input `ValueError` escapes), so the bodies below are total
and every internal exception becomes `false`. -/

/-- Body of `verify_feasibility` after input validation. -/
def feasibilityBody (problem_text solution_data : String) : Bool :=
  match parse_problem problem_text with
  | none => false
  | some (capacity, items) =>
    match parse_solution solution_data with
    | none => false
    | some selected_names =>
      if selected_names = [] then true
      else
        match buildItemMap items with
        | .error _ => false
        | .ok item_map =>
          match sumFieldGuard item_map "weight" 0 selected_names with
          | none => false
          | some total_weight => total_weight ≤ (capacity : Int)

/-- `Verifier.verify_feasibility`: raises `ValueError` on empty inputs,
otherwise total-weight feasibility with all internal errors absorbed to
`False`. -/
def verify_feasibility (problem_text solution_data : String) : Except PyErr Bool :=
  if problem_text = "" || solution_data = "" then .error .valueError
  else .ok (feasibilityBody problem_text solution_data)

/-- The `optimal_value` computation of `verify_optimality`, including its
explicit `n == 0` / `capacity == 0` short-circuits. -/
def optimalValueOf (capacity : Nat) (items : List JVal) : Except PyErr Int :=
  if items.length = 0 then .ok 0
  else if capacity = 0 then .ok 0
  else knapsackOpt capacity items

/-- Body of `verify_optimality` after input validation: DP first, then the
guarded value sum, then the exact comparison.  Feasibility (total weight vs
capacity) is never consulted on this path. -/
def optimalityBody (problem_text solution_data : String) : Bool :=
  match parse_problem problem_text with
  | none => false
  | some (capacity, items) =>
    match parse_solution solution_data with
    | none => false
    | some selected_names =>
      match optimalValueOf capacity items with
      | .error _ => false
      | .ok optimal_value =>
        match buildItemMap items with
        | .error _ => false
        | .ok item_map =>
          match sumFieldGuard item_map "value" 0 selected_names with
          | none => false
          | some solution_value => solution_value = optimal_value

/-- `Verifier.verify_optimality`: raises `ValueError` on empty inputs,
otherwise compares the candidate's total value with the DP optimum, all
internal errors absorbed to `False`. -/
def verify_optimality (problem_text solution_data : String) : Except PyErr Bool :=
  if problem_text = "" || solution_data = "" then .error .valueError
  else .ok (optimalityBody problem_text solution_data)

/-! ### `Verifier.verify_comprehensive` -/

/-- The `DetailedVerificationResult` dataclass of `src/verifiers.py`. -/
structure DetailedVerificationResult where
  is_feasible : Bool
  is_optimal : Bool
  solution_weight : Int
  solution_value : Int
  computed_optimum : Int
  capacity : Nat
  status : String
  gap : Int
  false_optimal_claim : Bool
deriving Repr, DecidableEq

/-- The final result assembly of `verify_comprehensive` (lines 440–509):
feasibility, optimality, status, gap and the false-claim flag computed from
the solution totals, the DP optimum and the claimed status. -/
def comprehensiveResult (capacity : Nat) (solution_weight solution_value computed_optimum : Int)
    (claimed_status : Option String) : DetailedVerificationResult :=
  { is_feasible := solution_weight ≤ (capacity : Int)
    is_optimal := (solution_weight ≤ (capacity : Int) : Bool) &&
      (solution_value = computed_optimum)
    solution_weight := solution_weight
    solution_value := solution_value
    computed_optimum := computed_optimum
    capacity := capacity
    status :=
      if !(solution_weight ≤ (capacity : Int) : Bool) then "INFEASIBLE"
      else if (solution_weight ≤ (capacity : Int) : Bool) &&
          (solution_value = computed_optimum) then "OPTIMAL"
      else "BOUNDED"
    gap :=
      if (solution_weight ≤ (capacity : Int) : Bool) then
        computed_optimum - solution_value
      else 0
    false_optimal_claim := (claimed_status = some "OPTIMAL" : Bool) &&
      !((solution_weight ≤ (capacity : Int) : Bool) &&
        (solution_value = computed_optimum)) }

/-- `Verifier.verify_comprehensive`: unlike the two boolean entry points it
has no blanket `except`, so a `KeyError`/`TypeError`/`IndexError` reached
from a malformed item propagates to the caller (`.error`).  The
`MemoryError` branch of the DP allocation is not modelled. -/
def verify_comprehensive (problem_text solution_data : String)
    (claimed_status : Option String) : Except PyErr DetailedVerificationResult :=
  if problem_text = "" || solution_data = "" then .error .valueError
  else
    match parse_problem problem_text with
    | none =>
      .ok ⟨false, false, 0, 0, 0, 0, "INFEASIBLE", 0, false⟩
    | some (capacity, items) =>
      match parse_solution solution_data with
      | none =>
        .ok ⟨false, false, 0, 0, 0, capacity, "INFEASIBLE", 0, false⟩
      | some selected_names =>
        match buildItemMap items with
        | .error e => .error e
        | .ok item_map =>
          match sumWeightValue item_map 0 0 selected_names with
          | .error e => .error e
          | .ok none =>
            .ok ⟨false, false, 0, 0, 0, capacity, "INFEASIBLE", 0, false⟩
          | .ok (some (solution_weight, solution_value)) =>
            match knapsackOpt capacity items with
            | .error e => .error e
            | .ok computed_optimum =>
              .ok (comprehensiveResult capacity solution_weight solution_value
                computed_optimum claimed_status)

/-! ### `ProblemValidator.validate_problem_text` (`src/validation.py`)

Its regexes differ from the Verifier's: `"Knapsack capacity: (\d+)"` has a
single literal space (no `\s*`), and `"Available items: (\[.*?\])"` is
compiled without `re.DOTALL`, so the captured segment may not contain a
newline. -/

/-- The `ValidationResult` dataclass of `src/validation.py`. -/
structure ValidationResult where
  is_valid : Bool
  errors : List String
  warnings : List String
deriving Repr, DecidableEq

/-- Leftmost match of `re.search(r"Knapsack capacity: (\d+)", t)`: the
literal marker (single space included) must be followed immediately by a
digit. -/
def findCapacityStrict (marker : List Char) : List Char → Option Nat
  | [] => none
  | c :: rest =>
    (if marker.isPrefixOf (c :: rest) then
      let digs := ((c :: rest).drop marker.length).takeWhile isDigitCh
      if digs = [] then none else some (digitsToNat digs)
    else none).orElse (fun _ => findCapacityStrict marker rest)

/-- Leftmost match of `re.search(r"Available items: (\[.*?\])", t)` without
DOTALL: a `[` directly after the marker (single space included), closed by
a `]` with no intervening newline. -/
def findItemsSegStrict (marker : List Char) : List Char → Option (List Char)
  | [] => none
  | c :: rest =>
    (if marker.isPrefixOf (c :: rest) then
      match (c :: rest).drop marker.length with
      | '[' :: body =>
        let line := body.takeWhile (fun ch => ch ≠ '\n')
        match findSub [']'] line with
        | some j => some ('[' :: line.take j ++ [']'])
        | none => none
      | _ => none
    else none).orElse (fun _ => findItemsSegStrict marker rest)

/-- The capacity branch of `validate_problem_text`: the errors and warnings
it appends. -/
def capacityChecks (t : String) : List String × List String :=
  match findCapacityStrict "Knapsack capacity: ".toList t.toList with
  | none => (["Problem text must contain 'Knapsack capacity: <number>'"], [])
  | some capacity =>
    if capacity ≤ 0 then
      (["Capacity must be positive, got " ++ toString capacity], [])
    else if capacity > 100000 then
      (["Capacity too large (" ++ toString capacity
        ++ "). Maximum allowed is 100000 to prevent DoS"], [])
    else if capacity > 10000 then
      ([], ["Large capacity (" ++ toString capacity
        ++ ") may cause performance issues"])
    else ([], [])

/-- The per-item field checks of `validate_problem_text` (run only when the
item count is within bounds). -/
def itemFieldChecks : Nat → List JVal → List String
  | _, [] => []
  | i, item :: rest =>
    (match item with
    | .jobj _ =>
      (match pyGetField item "name" with
       | .ok _ => []
       | .error _ => ["Item " ++ toString i ++ " missing 'name' field"]) ++
      (match pyGetField item "weight" with
       | .error _ => ["Item " ++ toString i ++ " missing 'weight' field"]
       | .ok w =>
         match pyToInt w with
         | .ok n => if n ≤ 0 then ["Item " ++ toString i ++ " weight must be positive number"] else []
         | .error _ => ["Item " ++ toString i ++ " weight must be positive number"]) ++
      (match pyGetField item "value" with
       | .error _ => ["Item " ++ toString i ++ " missing 'value' field"]
       | .ok v =>
         match pyToInt v with
         | .ok n => if n < 0 then ["Item " ++ toString i ++ " value must be non-negative number"] else []
         | .error _ => ["Item " ++ toString i ++ " value must be non-negative number"])
    | _ => ["Item " ++ toString i ++ " must be a dictionary"])
    ++ itemFieldChecks (i + 1) rest

/-- The items branch of `validate_problem_text`. -/
def itemsChecks (t : String) : List String × List String :=
  match findItemsSegStrict "Available items: ".toList t.toList with
  | none => (["Problem text must contain 'Available items: [...]'"], [])
  | some seg =>
    match jsonLoads (String.mk seg) with
    | none => (["Failed to parse items list"], [])
    | some j =>
      match j with
      | .jarr items =>
        if items.length = 0 then ([], ["No items available in the problem"])
        else if items.length > 1000 then
          (["Too many items (" ++ toString items.length
            ++ "). Maximum allowed is 1000 to prevent DoS"], [])
        else if items.length > 100 then
          ([], ["Large number of items (" ++ toString items.length
            ++ ") may cause performance issues"])
        else (itemFieldChecks 0 items, [])
      | _ => (["Items must be a list"], [])

/-- `ProblemValidator.validate_problem_text`. -/
def validate_problem_text (t : String) : ValidationResult :=
  if t = "" then
    ⟨false, ["Problem text must be a non-empty string"], []⟩
  else
    let cp := capacityChecks t
    let it := itemsChecks t
    let errors := cp.1 ++ it.1
    ⟨errors = [], errors, cp.2 ++ it.2⟩

/-! ### `InferenceEngine.solve` (`src/inference_engine.py`)

The external generator is a function from the attempt index to either a
raw output string or a raised exception (`.error`).  The loop's observable
behaviour is the returned attempt record plus the list of attempt indices
on which the generator was invoked. -/

/-- The result dictionary built for one attempt inside
`InferenceEngine.solve`; `parsed = none` models the sentinel's empty dict.
`attempt` is 1-based as in the code. -/
structure AttemptRecord where
  raw_output : String
  parsed : Option ParsedOutput
  feasible : Bool
  optimal : Bool
  verified : Bool
  attempt : Nat
deriving Repr, DecidableEq

/-- The sentinel record returned when every attempt raised. -/
def sentinelRecord (max_retries : Nat) : AttemptRecord :=
  ⟨"", none, false, false, false, max_retries⟩

/-- The verification step of one attempt: `if parsed["answer"]:` (Python
truthiness — present and non-empty) gates the two verifier calls, otherwise
both flags are `False` without a call.  `none` models a `ValueError` raised
by the verifier calls (empty `problem_text`) and swallowed by the loop's
`except` clause. -/
def answerFlags (problem_text : String) (parsed : ParsedOutput) : Option (Bool × Bool) :=
  match parsed.answer with
  | none => some (false, false)
  | some a =>
    if a = "" then some (false, false)
    else
      match verify_feasibility problem_text a, verify_optimality problem_text a with
      | .ok is_feasible, .ok is_optimal => some (is_feasible, is_optimal)
      | _, _ => none

/-- One iteration body of the retry loop: `none` when the attempt raised
(generator failure, over-long output in `parse_output`, or a `ValueError`
from the verifier calls) and was swallowed by the `except` clause; otherwise
the attempt's record and its score.

The score-1 test is `parsed["answer"] is not None` (unlike the verification
gate, which tests truthiness). -/
def attemptOutcome (problem_text : String) (gen : Nat → Except Unit String)
    (k : Nat) : Option (AttemptRecord × Int) :=
  match gen k with
  | .error _ => none
  | .ok raw_output =>
    match parse_output raw_output with
    | .error _ => none
    | .ok parsed =>
      match answerFlags problem_text parsed with
      | none => none
      | some (is_feasible, is_optimal) =>
        some (⟨raw_output, some parsed, is_feasible, is_optimal,
            is_feasible && is_optimal, k + 1⟩,
          if is_optimal then 3
          else if is_feasible then 2
          else if parsed.answer.isSome then 1
          else 0)

/-- The `score > best_score` update (`best_score` starts at `-1`). -/
def bestStep (best : Option (AttemptRecord × Int)) (r : AttemptRecord × Int) :
    Option (AttemptRecord × Int) :=
  match best with
  | none => if r.2 > -1 then some r else none
  | some b => if r.2 > b.2 then some r else some b

/-- The retry loop, structured over the remaining budget: carries the
best-so-far record and the trace of generator invocations. -/
def solveGo (problem_text : String) (gen : Nat → Except Unit String)
    (max_retries : Nat) :
    Nat → Nat → Option (AttemptRecord × Int) → List Nat → AttemptRecord × List Nat
  | 0, _, best, trace =>
    (match best with
     | some (br, _) => br
     | none => sentinelRecord max_retries, trace)
  | remaining + 1, k, best, trace =>
    match attemptOutcome problem_text gen k with
    | none => solveGo problem_text gen max_retries remaining (k + 1) best (trace ++ [k])
    | some (record, score) =>
      if record.feasible && record.optimal then (record, trace ++ [k])
      else solveGo problem_text gen max_retries remaining (k + 1)
        (bestStep best (record, score)) (trace ++ [k])

/-- `InferenceEngine.solve`: the early return fires before the best-tracking
matters for the returned value, so applying `bestStep` only on the
non-returning branch is observationally identical to the code (which updates
`best_result` just before the `return`). -/
def solve (problem_text : String) (gen : Nat → Except Unit String)
    (max_retries : Nat) : AttemptRecord × List Nat :=
  solveGo problem_text gen max_retries max_retries 0 none []

/-! ### Observables and spec-side comparators for the retry loop -/

/-- Whether an attempt outcome is a verified record (the early-return
condition `is_feasible and is_optimal`). -/
def isVerifiedOutcome : Option (AttemptRecord × Int) → Bool
  | some (r, _) => r.feasible && r.optimal
  | none => false

/-- Whether an attempt outcome did NOT score 3 (a raised attempt records no
score at all). -/
def scoreNot3 : Option (AttemptRecord × Int) → Bool
  | some (_, s) => s ≠ 3
  | none => true

/-- The scored records produced by attempts `k, k+1, ...` over a remaining
budget, skipping raised attempts — the list `best_result` is folded over
when no early return fires. -/
def attemptRecords (problem_text : String) (gen : Nat → Except Unit String) :
    Nat → Nat → List (AttemptRecord × Int)
  | 0, _ => []
  | remaining + 1, k =>
    match attemptOutcome problem_text gen k with
    | none => attemptRecords problem_text gen remaining (k + 1)
    | some x => x :: attemptRecords problem_text gen remaining (k + 1)

/-- Modelled from the spec: "Track the highest-scoring attempt seen so far
(ties keep the earliest)" — the earliest record of maximal score (the head
is kept unless a strictly higher score appears later). -/
def firstMax : List (AttemptRecord × Int) → Option (AttemptRecord × Int)
  | [] => none
  | x :: rest =>
    match firstMax rest with
    | none => some x
    | some y => if y.2 > x.2 then some y else some x

/-- Resolve an "earliest best" against an already-held accumulator with
strict-improvement preference (helper for relating the loop fold to
`firstMax`). -/
def chooseAcc (a : AttemptRecord × Int) : Option (AttemptRecord × Int) →
    AttemptRecord × Int
  | none => a
  | some y => if y.2 > a.2 then y else a

/-! ### Spec-side predicates for the tag parser and the comprehensive path -/

/-- The regex `<tag>(.*?)</tag>` (DOTALL) has a match in `t`: some opening
delimiter occurrence is followed (disjointly) by a closing delimiter
occurrence. -/
def hasDelimitedRegion (tag : String) (t : String) : Prop :=
  ∃ i j, occursAt (openTag tag) t.toList i ∧ occursAt (closeTag tag) t.toList j ∧
    i + (openTag tag).length ≤ j

/-- `verify_comprehensive` reaches its final (fully-verified) result: both
decodes succeed, the item map builds, and every selected name is known. -/
def comprehensiveFullPath (problem_text solution_data : String) : Prop :=
  ∃ capacity items selected_names item_map wv,
    parse_problem problem_text = some (capacity, items) ∧
    parse_solution solution_data = some selected_names ∧
    buildItemMap items = Except.ok item_map ∧
    sumWeightValue item_map 0 0 selected_names = Except.ok (some wv)

/-! ### Concrete inputs used by the claim instances -/

/-- The fixed problem of the spec's false-claim detection property:
capacity 10, `A(weight=5,value=10)`, `B(weight=6,value=12)`. -/
def probAB : String :=
  "Knapsack capacity: 10. Available items: [\x7b\"name\": \"A\", \"weight\": 5, \"value\": 10\x7d, \x7b\"name\": \"B\", \"weight\": 6, \"value\": 12\x7d]"

/-- Capacity 5 with `A(weight=5,value=10)` and `B(weight=6,value=10)`:
`["B"]` is over capacity but its value ties the optimum. -/
def probTie : String :=
  "Knapsack capacity: 5. Available items: [\x7b\"name\": \"A\", \"weight\": 5, \"value\": 10\x7d, \x7b\"name\": \"B\", \"weight\": 6, \"value\": 10\x7d]"

/-- Capacity 10 with a single item `A(weight=5,value=10)`: selecting `A`
twice stays within capacity but doubles the value past the 0/1 optimum. -/
def probSingleA : String :=
  "Knapsack capacity: 10. Available items: [\x7b\"name\": \"A\", \"weight\": 5, \"value\": 10\x7d]"

/-- A problem whose only item lacks the `name` field. -/
def probNoName : String :=
  "Knapsack capacity: 5. Available items: [\x7b\"weight\": 1, \"value\": 1\x7d]"

/-- A problem whose decoded capacity (100001) exceeds the 100000 hard cap. -/
def probBigCap : String :=
  "Knapsack capacity: 100001. Available items: [\x7b\"name\": \"A\", \"weight\": 1, \"value\": 7\x7d]"

/-- The decoded items of `probBigCap`. -/
def itemsBigCap : List JVal :=
  [.jobj [("name", .jstr "A"), ("weight", .jnum 1), ("value", .jnum 7)]]

/-- Generator stub that is verified on attempt 2 (index 1) for `probAB`. -/
def genVerifiedAt1 : Nat → Except Unit String := fun k =>
  if k = 1 then .ok "<answer>[\"B\"]</answer>" else .ok "no tags here"

/-- Generator stub whose first attempt answers `["B"]` (score 3 but
infeasible on `probTie`) and then emits junk. -/
def genTie : Nat → Except Unit String := fun k =>
  if k = 0 then .ok "<answer>[\"B\"]</answer>" else .ok "junk"

/-- Generator stub whose first attempt is feasible but suboptimal on
`probAB` and whose second is unparseable. -/
def genFallback : Nat → Except Unit String := fun k =>
  if k = 0 then .ok "<answer>[\"A\"]</answer>" else .ok "junk"

/-- Generator stub that always raises. -/
def genRaise : Nat → Except Unit String := fun _ => .error ()

/-- Generator stub that always emits an empty answer tag. -/
def genEmptyAnswer : Nat → Except Unit String := fun _ => .ok "<answer></answer>"

/-- Decoded item `A(weight=5,value=10)`. -/
def itemA : JVal := .jobj [("name", .jstr "A"), ("weight", .jnum 5), ("value", .jnum 10)]

/-- Decoded item `B(weight=6,value=12)`. -/
def itemB12 : JVal := .jobj [("name", .jstr "B"), ("weight", .jnum 6), ("value", .jnum 12)]

/-- Decoded item `B(weight=6,value=10)`. -/
def itemB10 : JVal := .jobj [("name", .jstr "B"), ("weight", .jnum 6), ("value", .jnum 10)]

/-- The decoded items of `probAB`. -/
def itemsAB : List JVal := [itemA, itemB12]

/-- The decoded items of `probTie`. -/
def itemsTie : List JVal := [itemA, itemB10]

/-- The record `InferenceEngine.solve` builds for attempt 1 of `genTie` on
`probTie` (answer `["B"]`: infeasible, yet `verify_optimality` true). -/
def recTie : AttemptRecord :=
  ⟨"<answer>[\"B\"]</answer>",
    some ⟨none, none, none, none, none, none, some "[\"B\"]"⟩,
    false, true, false, 1⟩

/-- The verified record for attempt 2 of `genVerifiedAt1` on `probAB`. -/
def recVerifiedAt1 : AttemptRecord :=
  ⟨"<answer>[\"B\"]</answer>",
    some ⟨none, none, none, none, none, none, some "[\"B\"]"⟩,
    true, true, true, 2⟩

/-- The feasible-but-suboptimal record for attempt 1 of `genFallback` on
`probAB`. -/
def recFallback : AttemptRecord :=
  ⟨"<answer>[\"A\"]</answer>",
    some ⟨none, none, none, none, none, none, some "[\"A\"]"⟩,
    true, false, false, 1⟩

/-! ## Shared lemmas -/

theorem findSub_occurs {pat : List Char} :
    ∀ {s : List Char} {i : Nat}, findSub pat s = some i → occursAt pat s i := by
  intro s
  induction s with
  | nil =>
    intro i h
    unfold findSub at h
    split at h
    · cases h
      assumption
    · cases h
  | cons c rest ih =>
    intro i h
    unfold findSub at h
    split at h
    · cases h
      assumption
    · rcases Option.map_eq_some'.mp h with ⟨i', hi', rfl⟩
      exact ih hi'

theorem findSub_none {pat : List Char} :
    ∀ {s : List Char}, findSub pat s = none → ∀ i, ¬ occursAt pat s i := by
  intro s
  induction s with
  | nil =>
    intro h i hocc
    unfold findSub at h
    split at h
    · cases h
    · rename_i hpre
      unfold occursAt at hocc
      simp only [List.drop_nil] at hocc
      exact hpre hocc
  | cons c rest ih =>
    intro h i hocc
    unfold findSub at h
    split at h
    · cases h
    · rename_i hpre
      have hrest : findSub pat rest = none := by
        cases hr : findSub pat rest with
        | none => rfl
        | some j => rw [hr] at h; cases h
      cases i with
      | zero => exact hpre hocc
      | succ i' => exact ih hrest i' hocc

theorem findSub_min {pat : List Char} :
    ∀ {s : List Char} {i : Nat}, findSub pat s = some i →
      ∀ k, occursAt pat s k → i ≤ k := by
  intro s
  induction s with
  | nil =>
    intro i h k _
    unfold findSub at h
    split at h
    · cases h; omega
    · cases h
  | cons c rest ih =>
    intro i h k hk
    unfold findSub at h
    split at h
    · cases h; omega
    · rename_i hpre
      rcases Option.map_eq_some'.mp h with ⟨i', hi', rfl⟩
      cases k with
      | zero => exact absurd hk hpre
      | succ k' => exact Nat.succ_le_succ (ih hi' k' hk)

/-- An occurrence in a dropped suffix is an occurrence in the whole list. -/
theorem occursAt_of_drop {pat s : List Char} {m k : Nat}
    (h : occursAt pat (s.drop m) k) : occursAt pat s (k + m) := by
  unfold occursAt at h ⊢
  rw [List.drop_drop] at h
  rwa [Nat.add_comm] at h

/-- An occurrence past a drop point is an occurrence in the dropped suffix. -/
theorem occursAt_drop_of {pat s : List Char} {m j : Nat} (hm : m ≤ j)
    (h : occursAt pat s j) : occursAt pat (s.drop m) (j - m) := by
  unfold occursAt at h ⊢
  rw [List.drop_drop]
  have hjm : m + (j - m) = j := by omega
  rwa [hjm]

/-- The DOTALL tag regex matches exactly when an opening delimiter is
followed by a closing delimiter. -/
theorem extractTagRaw_none_iff (tag : String) (s : List Char) :
    extractTagRaw tag s = none ↔
      ¬ (∃ i j, occursAt (openTag tag) s i ∧ occursAt (closeTag tag) s j ∧
          i + (openTag tag).length ≤ j) := by
  constructor
  · intro h ⟨i, j, ho, hc, hij⟩
    unfold extractTagRaw at h
    split at h
    · exact findSub_none (by assumption) i ho
    · rename_i i0 hfind
      split at h
      · rename_i hclose
        have hi0 : i0 ≤ i := findSub_min hfind i ho
        have hm : i0 + (openTag tag).length ≤ j := by omega
        exact findSub_none hclose _ (occursAt_drop_of hm hc)
      · cases h
  · intro h
    cases hx : extractTagRaw tag s with
    | none => rfl
    | some content =>
      exfalso
      apply h
      unfold extractTagRaw at hx
      split at hx
      · cases hx
      · rename_i i0 hfind
        split at hx
        · cases hx
        · rename_i j0 hclose
          refine ⟨i0, j0 + (i0 + (openTag tag).length), findSub_occurs hfind, ?_, by omega⟩
          exact occursAt_of_drop (findSub_occurs hclose)

/-- Sections with missing delimiters decode to `None`. -/
theorem extractSection_none_iff (tag : String) (t : String) :
    extractSection tag t = none ↔ ¬ hasDelimitedRegion tag t := by
  unfold extractSection hasDelimitedRegion
  rw [Option.map_eq_none']
  exact extractTagRaw_none_iff tag t.toList

/-- The `gap` field of the fully-verified outcome follows the feasibility
split of line 474. -/
theorem comprehensiveResult_gap (cap : Nat) (sw sv opt : Int) (cl : Option String) :
    ((comprehensiveResult cap sw sv opt cl).is_feasible = true →
      (comprehensiveResult cap sw sv opt cl).gap =
        (comprehensiveResult cap sw sv opt cl).computed_optimum -
        (comprehensiveResult cap sw sv opt cl).solution_value) ∧
    ((comprehensiveResult cap sw sv opt cl).is_feasible = false →
      (comprehensiveResult cap sw sv opt cl).gap = 0) := by
  unfold comprehensiveResult
  by_cases hf : sw ≤ (cap : Int) <;> simp [hf]

/-- On the fully-verified outcome, the false-claim flag is exactly
"claimed OPTIMAL while the computed status is not OPTIMAL". -/
theorem comprehensiveResult_foc (cap : Nat) (sw sv opt : Int) (cl : Option String) :
    ((comprehensiveResult cap sw sv opt cl).false_optimal_claim = true ↔
      cl = some "OPTIMAL" ∧ (comprehensiveResult cap sw sv opt cl).status ≠ "OPTIMAL") := by
  unfold comprehensiveResult
  by_cases hf : sw ≤ (cap : Int) <;> by_cases ho : sv = opt <;>
    simp [hf, ho, (by decide : ("BOUNDED" : String) ≠ "OPTIMAL"),
      (by decide : ("INFEASIBLE" : String) ≠ "OPTIMAL")]

/-- An attempt record with `optimal = true` always scores 3. -/
theorem attemptOutcome_optimal_score {p : String} {gen : Nat → Except Unit String}
    {k : Nat} {rec : AttemptRecord} {s : Int}
    (h : attemptOutcome p gen k = some (rec, s)) (ho : rec.optimal = true) :
    s = 3 := by
  unfold attemptOutcome at h
  split at h
  · cases h
  · split at h
    · cases h
    · split at h
      · cases h
      · rename_i isf iso hfl
        cases h
        have hiso : iso = true := ho
        rw [hiso]
        rfl

/-- Attempt scores are in `{0, 1, 2, 3}`. -/
theorem attemptOutcome_score_nonneg {p : String} {gen : Nat → Except Unit String}
    {k : Nat} {rec : AttemptRecord} {s : Int}
    (h : attemptOutcome p gen k = some (rec, s)) : 0 ≤ s := by
  unfold attemptOutcome at h
  split at h
  · cases h
  · split at h
    · cases h
    · split at h
      · cases h
      · cases h
        split
        · omega
        · split
          · omega
          · split <;> omega

/-- The retry loop returns the first verified attempt the moment it is
produced, with no later generator invocation. -/
theorem solveGo_stops_at_verified (p : String) (gen : Nat → Except Unit String)
    (n : Nat) (k : Nat) (rec : AttemptRecord) (s : Int)
    (hout : attemptOutcome p gen k = some (rec, s))
    (hf : rec.feasible = true) (ho : rec.optimal = true) :
    ∀ (remaining k₀ : Nat) (best : Option (AttemptRecord × Int)) (trace : List Nat),
      k₀ ≤ k → k < k₀ + remaining →
      (∀ j, k₀ ≤ j → j < k → isVerifiedOutcome (attemptOutcome p gen j) = false) →
      solveGo p gen n remaining k₀ best trace = (rec, trace ++ List.range' k₀ (k - k₀ + 1)) := by
  intro remaining
  induction remaining with
  | zero => intro k₀ best trace h1 h2 _; omega
  | succ rem ih =>
    intro k₀ best trace h1 h2 hprev
    by_cases hk : k₀ = k
    · subst hk
      unfold solveGo
      rw [hout]
      have hone : k₀ - k₀ + 1 = 1 := by omega
      rw [hone]
      simp [hf, ho, List.range'_one]
    · have hlt : k₀ < k := by omega
      have hrange : k - k₀ + 1 = (k - (k₀ + 1) + 1) + 1 := by omega
      have hstep : List.range' k₀ (k - k₀ + 1) = k₀ :: List.range' (k₀ + 1) (k - (k₀ + 1) + 1) := by
        rw [hrange, List.range'_succ]
      have hprev' : ∀ j, k₀ + 1 ≤ j → j < k → isVerifiedOutcome (attemptOutcome p gen j) = false :=
        fun j hj1 hj2 => hprev j (by omega) hj2
      unfold solveGo
      cases h₀ : attemptOutcome p gen k₀ with
      | none =>
        show solveGo p gen n rem (k₀ + 1) best (trace ++ [k₀]) = _
        rw [ih (k₀ + 1) best (trace ++ [k₀]) (by omega) (by omega) hprev']
        rw [hstep]
        simp [List.append_assoc]
      | some x =>
        obtain ⟨rec', s'⟩ := x
        have hb : (rec'.feasible && rec'.optimal) = false := by
          have hv := hprev k₀ (le_refl _) hlt
          rw [h₀] at hv
          simpa [isVerifiedOutcome] using hv
        show (if (rec'.feasible && rec'.optimal) = true then (rec', trace ++ [k₀])
          else solveGo p gen n rem (k₀ + 1) (bestStep best (rec', s')) (trace ++ [k₀])) = _
        rw [hb]
        simp only [Bool.false_eq_true, if_false]
        rw [ih (k₀ + 1) (bestStep best (rec', s')) (trace ++ [k₀]) (by omega) (by omega) hprev']
        rw [hstep]
        simp [List.append_assoc]

/-- Folding the strict-improvement update from a held accumulator resolves
to the earliest maximum, preferring the accumulator on ties. -/
theorem foldl_bestStep_some (l : List (AttemptRecord × Int)) :
    ∀ a, List.foldl bestStep (some a) l = some (chooseAcc a (firstMax l)) := by
  induction l with
  | nil => intro a; rfl
  | cons x rest ih =>
    intro a
    have hstep : bestStep (some a) x = if x.2 > a.2 then some x else some a := rfl
    rw [List.foldl_cons, hstep]
    by_cases hxa : x.2 > a.2
    · rw [if_pos hxa, ih x]
      simp only [firstMax]
      cases hfm : firstMax rest with
      | none => simp [chooseAcc, hxa]
      | some y =>
        by_cases hyx : y.2 > x.2
        · have hya : y.2 > a.2 := by omega
          simp [chooseAcc, hyx, hya]
        · simp [chooseAcc, hyx, hxa]
    · rw [if_neg hxa, ih a]
      simp only [firstMax]
      cases hfm : firstMax rest with
      | none => simp [chooseAcc, hxa]
      | some y =>
        by_cases hyx : y.2 > x.2
        · simp [chooseAcc, hyx]
        · have hya : ¬ y.2 > a.2 := by omega
          simp [chooseAcc, hyx, hxa, hya]

/-- Folding the strict-improvement update from the initial `-1` score picks
the earliest record of maximal score. -/
theorem foldl_bestStep_none (l : List (AttemptRecord × Int))
    (hnn : ∀ x ∈ l, 0 ≤ x.2) :
    List.foldl bestStep none l = firstMax l := by
  cases l with
  | nil => rfl
  | cons x rest =>
    have hx : (0 : Int) ≤ x.2 := hnn x (List.mem_cons_self _ _)
    have hstep : bestStep none x = some x := by
      unfold bestStep; rw [if_pos (by omega)]
    rw [List.foldl_cons, hstep, foldl_bestStep_some]
    simp only [firstMax]
    cases hfm : firstMax rest with
    | none => simp [chooseAcc]
    | some y =>
      by_cases hyx : y.2 > x.2
      · simp [chooseAcc, hyx]
      · simp [chooseAcc, hyx]

/-- Every score in the recorded-attempt list is non-negative. -/
theorem attemptRecords_score_nonneg (p : String) (gen : Nat → Except Unit String) :
    ∀ (remaining k : Nat) (x : AttemptRecord × Int),
      x ∈ attemptRecords p gen remaining k → 0 ≤ x.2 := by
  intro remaining
  induction remaining with
  | zero => intro k x hx; cases hx
  | succ rem ih =>
    intro k x hx
    unfold attemptRecords at hx
    split at hx
    · exact ih (k + 1) x hx
    · rename_i rec s hout
      cases hx with
      | head => exact attemptOutcome_score_nonneg hout
      | tail _ h => exact ih (k + 1) x h

/-- Unfolding `attemptRecords` past a raised attempt. -/
theorem attemptRecords_succ_none {p : String} {gen : Nat → Except Unit String}
    {k : Nat} (rem : Nat) (h : attemptOutcome p gen k = none) :
    attemptRecords p gen (rem + 1) k = attemptRecords p gen rem (k + 1) := by
  show (match attemptOutcome p gen k with
    | none => attemptRecords p gen rem (k + 1)
    | some x => x :: attemptRecords p gen rem (k + 1)) = _
  rw [h]

/-- Unfolding `attemptRecords` past a recorded attempt. -/
theorem attemptRecords_succ_some {p : String} {gen : Nat → Except Unit String}
    {k : Nat} {x : AttemptRecord × Int} (rem : Nat)
    (h : attemptOutcome p gen k = some x) :
    attemptRecords p gen (rem + 1) k = x :: attemptRecords p gen rem (k + 1) := by
  show (match attemptOutcome p gen k with
    | none => attemptRecords p gen rem (k + 1)
    | some y => y :: attemptRecords p gen rem (k + 1)) = _
  rw [h]

/-- When no attempt scores 3, the loop runs to exhaustion and its result is
the fold of the strict-improvement update over the recorded attempts. -/
theorem solveGo_exhausts (p : String) (gen : Nat → Except Unit String) (n : Nat) :
    ∀ (remaining k₀ : Nat) (best : Option (AttemptRecord × Int)) (trace : List Nat),
      (∀ j, k₀ ≤ j → j < k₀ + remaining → scoreNot3 (attemptOutcome p gen j) = true) →
      solveGo p gen n remaining k₀ best trace =
        (match List.foldl bestStep best (attemptRecords p gen remaining k₀) with
         | some (br, _) => br
         | none => sentinelRecord n,
         trace ++ List.range' k₀ remaining) := by
  intro remaining
  induction remaining with
  | zero =>
    intro k₀ best trace _
    show (match best with
      | some (br, _) => br
      | none => sentinelRecord n, trace) = _
    simp only [attemptRecords, List.foldl_nil, List.range'_zero, List.append_nil]
  | succ rem ih =>
    intro k₀ best trace h3
    have h3' : ∀ j, k₀ + 1 ≤ j → j < (k₀ + 1) + rem → scoreNot3 (attemptOutcome p gen j) = true :=
      fun j hj1 hj2 => h3 j (by omega) (by omega)
    have hrange : List.range' k₀ (rem + 1) = k₀ :: List.range' (k₀ + 1) rem :=
      List.range'_succ _ _ _
    unfold solveGo
    cases h₀ : attemptOutcome p gen k₀ with
    | none =>
      rw [attemptRecords_succ_none rem h₀]
      show solveGo p gen n rem (k₀ + 1) best (trace ++ [k₀]) = _
      rw [ih (k₀ + 1) best (trace ++ [k₀]) h3']
      rw [hrange]
      simp [List.append_assoc]
    | some x =>
      obtain ⟨rec, s⟩ := x
      have hs3 : s ≠ 3 := by
        have hn3 := h3 k₀ (le_refl _) (by omega)
        rw [h₀] at hn3
        unfold scoreNot3 at hn3
        simpa using hn3
      have hbranch : (rec.feasible && rec.optimal) = false := by
        cases hopt : rec.optimal with
        | true => exact absurd (attemptOutcome_optimal_score h₀ hopt) hs3
        | false => simp [hopt]
      rw [attemptRecords_succ_some rem h₀]
      show (if (rec.feasible && rec.optimal) = true then (rec, trace ++ [k₀])
        else solveGo p gen n rem (k₀ + 1) (bestStep best (rec, s)) (trace ++ [k₀])) = _
      rw [hbranch]
      simp only [Bool.false_eq_true, if_false, List.foldl_cons]
      rw [ih (k₀ + 1) (bestStep best (rec, s)) (trace ++ [k₀]) h3']
      rw [hrange]
      simp [List.append_assoc]

/-! ## Claim theorems -/

/-- C6: for the fixed problem with capacity 10 and items `A(5,10)`,
`B(6,12)`, `verify_comprehensive` on candidate `["A"]` with claimed status
`OPTIMAL` returns `is_feasible=true, is_optimal=false, solution_weight=5,
solution_value=10, computed_optimum=12, gap=2, status="BOUNDED",
false_optimal_claim=true`. -/
theorem C6_false_claim_detection :
    verify_comprehensive probAB "[\"A\"]" (some "OPTIMAL") =
      .ok ⟨true, false, 5, 10, 12, 10, "BOUNDED", 2, true⟩ := by
  rfl

/-- C1 counterexample: on `probTie` (capacity 5, `A(5,10)`, `B(6,10)`) the
candidate `["B"]` decodes, is over capacity (`verify_feasibility` is
false), yet `verify_optimality` returns true because its value 10 ties the
DP optimum — refuting "returns true iff the candidate is feasible and its
value equals the optimum". -/
theorem C1_counterexample :
    parse_problem probTie = some (5, itemsTie) ∧
    parse_solution "[\"B\"]" = some ["B"] ∧
    verify_feasibility probTie "[\"B\"]" = .ok false ∧
    verify_optimality probTie "[\"B\"]" = .ok true :=
  ⟨rfl, rfl, rfl, rfl⟩

/-- C1 (amended): whenever both decodes succeed, the item map builds, and
the guarded value sum returns `v`, `verify_optimality` returns exactly
`v = computed optimum` — with no feasibility hypothesis anywhere: the total
weight is never compared against the capacity on this path. -/
theorem C1_optimality_ignores_feasibility
    (p c : String) (capacity : Nat) (items : List JVal) (names : List String)
    (opt : Int) (m : List (JVal × JVal)) (v : Int)
    (hp : p ≠ "") (hc : c ≠ "")
    (h1 : parse_problem p = some (capacity, items))
    (h2 : parse_solution c = some names)
    (h3 : optimalValueOf capacity items = .ok opt)
    (h4 : buildItemMap items = .ok m)
    (h5 : sumFieldGuard m "value" 0 names = some v) :
    verify_optimality p c = .ok (decide (v = opt)) := by
  unfold verify_optimality optimalityBody
  rw [if_neg (by simp [hp, hc])]
  simp only [h1, h2, h3, h4, h5]

/-- C1 witness: the amended theorem applied to `probAB` and candidate
`["B"]` (value 12 equals the optimum 12). -/
theorem C1_witness : verify_optimality probAB "[\"B\"]" = .ok true :=
  C1_optimality_ignores_feasibility probAB "[\"B\"]" 10 itemsAB ["B"] 12
    [(.jstr "A", itemA), (.jstr "B", itemB12)] 12
    (by decide) (by decide) rfl rfl rfl rfl rfl

/-- C2 counterexample: on capacity 10 with the single item `A(5,10)`, the
candidate `["A", "A"]` (the same name twice) is accepted, counted twice
(weight 10, value 20), deemed feasible, and the returned gap is
`10 - 20 = -10 < 0` — refuting `gap >= 0`. -/
theorem C2_counterexample :
    verify_comprehensive probSingleA "[\"A\", \"A\"]" none =
      .ok ⟨true, false, 10, 20, 10, 10, "BOUNDED", -10, false⟩ ∧
    (-10 : Int) < 0 :=
  ⟨rfl, by decide⟩

/-- C2 (amended): every non-raising `verify_comprehensive` call returns
`gap = computed_optimum - solution_value` when feasible and `gap = 0` when
not feasible; the difference may be negative when the candidate repeats an
item name, so `gap >= 0` does not hold in general. -/
theorem C2_gap_formula (p c : String) (s : Option String)
    (r : DetailedVerificationResult)
    (h : verify_comprehensive p c s = .ok r) :
    (r.is_feasible = true → r.gap = r.computed_optimum - r.solution_value) ∧
    (r.is_feasible = false → r.gap = 0) := by
  unfold verify_comprehensive at h
  split at h
  · cases h
  · split at h
    · cases h
      exact ⟨fun hf => Bool.noConfusion hf, fun _ => rfl⟩
    · split at h
      · cases h
        exact ⟨fun hf => Bool.noConfusion hf, fun _ => rfl⟩
      · split at h
        · cases h
        · split at h
          · cases h
          · cases h
            exact ⟨fun hf => Bool.noConfusion hf, fun _ => rfl⟩
          · split at h
            · cases h
            · cases h
              exact comprehensiveResult_gap _ _ _ _ _

/-- C2 witness: the amended theorem applied to the C6 fixture, where the
feasible candidate `["A"]` has gap `12 - 10 = 2`. -/
theorem C2_witness :
    (⟨true, false, 5, 10, 12, 10, "BOUNDED", 2, true⟩ :
      DetailedVerificationResult).gap = 12 - 10 :=
  (C2_gap_formula probAB "[\"A\"]" (some "OPTIMAL") _ rfl).1 rfl

/-- C4 counterexample: `verify_comprehensive` on a problem whose only item
lacks the `name` field raises `KeyError` (propagates an exception) instead
of returning an `is_feasible=false` outcome — refuting "never raises on
malformed input ... also an items array whose objects lack a name, weight,
or value field". -/
theorem C4_counterexample :
    verify_comprehensive probNoName "[]" none = .error (.keyError "name") ∧
    probNoName ≠ "" ∧ ("[]" : String) ≠ "" :=
  ⟨rfl, by decide, by decide⟩

/-- C4 (amended): for non-empty inputs, a missing capacity/items marker or
an undecodable candidate is converted into a well-formed outcome with
`is_feasible = false`; only malformed item objects make
`verify_comprehensive` raise. -/
theorem C4_decode_failures_return_infeasible (p c : String) (s : Option String)
    (hp : p ≠ "") (hc : c ≠ "")
    (hfail : parse_problem p = none ∨ parse_solution c = none) :
    ∃ r, verify_comprehensive p c s = .ok r ∧ r.is_feasible = false := by
  unfold verify_comprehensive
  rw [if_neg (by simp [hp, hc])]
  rcases hfail with hf | hf
  · rw [hf]
    exact ⟨_, rfl, rfl⟩
  · cases hpp : parse_problem p with
    | none => exact ⟨_, rfl, rfl⟩
    | some pr =>
      obtain ⟨cap, items⟩ := pr
      rw [hf]
      exact ⟨_, rfl, rfl⟩

/-- C4 witness: the amended theorem applied to an unparseable problem
text. -/
theorem C4_witness :
    ∃ r, verify_comprehensive "x" "[]" none = .ok r ∧ r.is_feasible = false :=
  C4_decode_failures_return_infeasible "x" "[]" none (by decide) (by decide)
    (Or.inl rfl)

/-- C5 counterexample: for a problem with decoded capacity 100001 (over the
100000 cap), the Verifier's own `_parse_problem` succeeds with no error and
`verify_feasibility` proceeds to a normal verdict — refuting "decoding
reports an error and no computation is performed on every path that decodes
a problem, including the Verifier's own problem parsing". -/
theorem C5_counterexample :
    parse_problem probBigCap = some (100001, itemsBigCap) ∧
    (100001 : Nat) > 100000 ∧
    verify_feasibility probBigCap "[\"A\"]" = .ok true :=
  ⟨rfl, by decide, rfl⟩

/-- C5 (amended): the capacity and item-count hard caps live only in
`ProblemValidator.validate_problem_text`, which reports an error whenever
the parsed capacity exceeds 100000 or the decoded item list exceeds 1000
entries; the Verifier's `_parse_problem` applies no such bound. -/
theorem C5_bounds_only_in_validator :
    (∀ (t : String) (cpc : Nat),
      findCapacityStrict "Knapsack capacity: ".toList t.toList = some cpc →
      cpc > 100000 → (validate_problem_text t).is_valid = false) ∧
    (∀ (t : String) (seg : List Char) (items : List JVal),
      findItemsSegStrict "Available items: ".toList t.toList = some seg →
      jsonLoads (String.mk seg) = some (.jarr items) →
      items.length > 1000 → (validate_problem_text t).is_valid = false) ∧
    parse_problem probBigCap = some (100001, itemsBigCap) := by
  refine ⟨?_, ?_, rfl⟩
  · intro t cpc hfind hbig
    unfold validate_problem_text
    split
    · rfl
    · show decide ((capacityChecks t).1 ++ (itemsChecks t).1 = []) = false
      unfold capacityChecks
      simp only [hfind]
      rw [if_neg (show ¬ cpc ≤ 0 by omega), if_pos hbig]
      simp
  · intro t seg items hfind hjson hbig
    unfold validate_problem_text
    split
    · rfl
    · show decide ((capacityChecks t).1 ++ (itemsChecks t).1 = []) = false
      unfold itemsChecks
      simp only [hfind, hjson]
      rw [if_neg (show ¬ items.length = 0 by omega), if_pos hbig]
      simp

/-- C5 witness: the validator part of the amended theorem applied to the
capacity-100001 problem. -/
theorem C5_witness : (validate_problem_text probBigCap).is_valid = false :=
  C5_bounds_only_in_validator.1 probBigCap 100001 rfl (by decide)

/-- C3 counterexample: a problem text that fails to decode, with claimed
status `OPTIMAL`, yields `status = "INFEASIBLE" ≠ "OPTIMAL"` yet
`false_optimal_claim = false` — refuting the "including the cases where
decoding fails" part of the claim. -/
theorem C3_counterexample :
    verify_comprehensive "x" "[]" (some "OPTIMAL") =
      .ok ⟨false, false, 0, 0, 0, 0, "INFEASIBLE", 0, false⟩ ∧
    ("INFEASIBLE" : String) ≠ "OPTIMAL" :=
  ⟨rfl, by decide⟩

/-- C3 (amended): on the fully-decoded path `false_optimal_claim` is true
iff the claimed status is `OPTIMAL` and the computed status is not
`OPTIMAL`; on every early-return path (decode failure, unknown name) the
flag is unconditionally false. -/
theorem C3_false_claim_full_path_only (p c : String) (s : Option String)
    (r : DetailedVerificationResult)
    (h : verify_comprehensive p c s = .ok r) :
    (comprehensiveFullPath p c →
      (r.false_optimal_claim = true ↔ s = some "OPTIMAL" ∧ r.status ≠ "OPTIMAL")) ∧
    (¬ comprehensiveFullPath p c → r.false_optimal_claim = false) := by
  unfold verify_comprehensive at h
  split at h
  · cases h
  · split at h
    · rename_i heq1
      cases h
      constructor
      · intro hfp
        exfalso
        obtain ⟨cap, items, names, m, wv, h1, _, _, _⟩ := hfp
        rw [heq1] at h1
        cases h1
      · intro _
        rfl
    · rename_i cap items heq1
      split at h
      · rename_i heq2
        cases h
        constructor
        · intro hfp
          exfalso
          obtain ⟨cap', items', names', m', wv, h1, h2, _, _⟩ := hfp
          rw [heq2] at h2
          cases h2
        · intro _
          rfl
      · rename_i names heq2
        split at h
        · cases h
        · rename_i m heq3
          split at h
          · cases h
          · rename_i heq4
            cases h
            constructor
            · intro hfp
              exfalso
              obtain ⟨cap', items', names', m', wv, h1, h2, h3, h4⟩ := hfp
              rw [heq1] at h1
              obtain ⟨rfl, rfl⟩ : cap' = cap ∧ items' = items := by
                cases h1; exact ⟨rfl, rfl⟩
              rw [heq2] at h2
              obtain rfl : names' = names := by cases h2; rfl
              rw [heq3] at h3
              obtain rfl : m' = m := by cases h3; rfl
              rw [heq4] at h4
              cases h4
            · intro _
              rfl
          · rename_i sw sv heq4
            split at h
            · cases h
            · rename_i opt heq5
              cases h
              constructor
              · intro _
                exact comprehensiveResult_foc _ _ _ _ _
              · intro hnfp
                exact absurd ⟨cap, items, names, m, (sw, sv), heq1, heq2, heq3, heq4⟩ hnfp

/-- C3 witness: the amended theorem applied to the undecodable problem
`"x"` with a claimed `OPTIMAL` status: the flag stays false. -/
theorem C3_witness :
    ∃ r, verify_comprehensive "x" "[]" (some "OPTIMAL") = .ok r ∧
      r.false_optimal_claim = false :=
  ⟨_, rfl,
    (C3_false_claim_full_path_only "x" "[]" (some "OPTIMAL") _ rfl).2
      (fun hfp => by
        obtain ⟨cap, items, names, m, wv, h1, _, _, _⟩ := hfp
        rw [show parse_problem "x" = none from rfl] at h1
        cases h1)⟩

/-- C7 counterexample: on `probTie` with `genTie`, attempt 1 scores 3
(`verify_optimality` true) while infeasible, so it is not returned and the
generator IS invoked again (the invocation trace of a 2-attempt run is
`[0, 1]`, not `[0]`) — refuting "the loop stops the moment an attempt
scores 3". -/
theorem C7_counterexample :
    attemptOutcome probTie genTie 0 = some (recTie, 3) ∧
    recTie.feasible = false ∧
    (solve probTie genTie 2).2 = [0, 1] :=
  ⟨rfl, rfl, rfl⟩

/-- C7 (amended): the loop stops at the first verified attempt (feasible
AND optimal): if attempt `k` (0-based) is verified and no earlier attempt
was, `solve` returns that attempt's record and the generator is invoked
exactly on attempts `0..k`. -/
theorem C7_stops_at_first_verified (p : String) (gen : Nat → Except Unit String)
    (n k : Nat) (rec : AttemptRecord) (s : Int)
    (hk : k < n)
    (hprev : ∀ j < k, isVerifiedOutcome (attemptOutcome p gen j) = false)
    (hout : attemptOutcome p gen k = some (rec, s))
    (hf : rec.feasible = true) (ho : rec.optimal = true) :
    solve p gen n = (rec, List.range (k + 1)) := by
  unfold solve
  rw [solveGo_stops_at_verified p gen n k rec s hout hf ho n 0 none []
    (by omega) (by omega) (fun j _ hj => hprev j hj)]
  rw [List.range_eq_range']
  simp

set_option maxRecDepth 8000 in
/-- C7 witness: a generator verified on attempt 2 of `max_retries = 3`
returns at attempt 2 with invocation trace `[0, 1]` — attempt 3 never
runs. -/
theorem C7_witness :
    solve probAB genVerifiedAt1 3 = (recVerifiedAt1, [0, 1]) := by
  rw [C7_stops_at_first_verified probAB genVerifiedAt1 3 1 recVerifiedAt1 3
    (by omega) (by decide) rfl rfl rfl]
  rfl

/-- C8: when no attempt scores 3, the loop exhausts the budget, invokes the
generator on every attempt index, and returns the earliest highest-scoring
recorded attempt; with nothing recorded (every attempt raised) it returns
the sentinel record (empty output, empty parse map, all-false verification,
attempt count equal to the budget) instead of propagating the error. -/
theorem C8_exhaustion_returns_best (p : String) (gen : Nat → Except Unit String)
    (n : Nat)
    (h3 : ∀ j < n, scoreNot3 (attemptOutcome p gen j) = true) :
    solve p gen n =
      (match firstMax (attemptRecords p gen n 0) with
       | some b => b.1
       | none => sentinelRecord n,
       List.range n) ∧
    (attemptRecords p gen n 0 = [] → (solve p gen n).1 = sentinelRecord n) := by
  have hmain := solveGo_exhausts p gen n n 0 none [] (fun j _ hj => h3 j (by omega))
  rw [foldl_bestStep_none _ (attemptRecords_score_nonneg p gen n 0)] at hmain
  have hsolve : solve p gen n =
      (match firstMax (attemptRecords p gen n 0) with
       | some b => b.1
       | none => sentinelRecord n,
       List.range n) := by
    unfold solve
    rw [hmain, List.range_eq_range']
    simp only [List.nil_append]
    cases firstMax (attemptRecords p gen n 0) with
    | none => rfl
    | some b => rfl
  refine ⟨hsolve, fun hempty => ?_⟩
  rw [hsolve, hempty]
  rfl

set_option maxRecDepth 8000 in
/-- C8 witness: `genFallback` (feasible-suboptimal then junk) never scores
3; the run exhausts both attempts and returns attempt 1's record, the
earliest maximum. -/
theorem C8_witness :
    solve probAB genFallback 2 = (recFallback, [0, 1]) := by
  rw [(C8_exhaustion_returns_best probAB genFallback 2 (by decide)).1]
  rfl

/-- C9: `parse_output` fails fast with an error for every input above
1 MiB; within the cap it never fails, each of the seven sections is the
independent per-tag extraction from the full text, and a section whose
`<name>...</name>` delimiters are missing is `none`, not an error. -/
theorem C9_parse_output_robust (t : String) :
    (t.length > MAX_OUTPUT_LENGTH →
      parse_output t = .error ("Output text too long: " ++ toString t.length ++
        " bytes (max: " ++ toString MAX_OUTPUT_LENGTH ++ ")")) ∧
    (t.length ≤ MAX_OUTPUT_LENGTH →
      parse_output t = .ok (parseSections t) ∧
      ∀ tag : String, extractSection tag t = none ↔ ¬ hasDelimitedRegion tag t) := by
  constructor
  · intro hlen
    unfold parse_output
    rw [if_pos hlen]
  · intro hlen
    refine ⟨?_, fun tag => extractSection_none_iff tag t⟩
    unfold parse_output
    rw [if_neg (by omega)]

set_option maxRecDepth 8000 in
/-- C9 witness: a small tagged output parses to exactly its `answer`
section, every other section `none`. -/
theorem C9_witness :
    parse_output "<answer>hi</answer>" =
      .ok ⟨none, none, none, none, none, none, some "hi"⟩ := by
  rw [((C9_parse_output_robust "<answer>hi</answer>").2 (by decide)).1]
  rfl

/-- C10: an attempt whose output parses with a present-but-empty answer
tag skips verification (all flags false) yet scores 1, because the empty
string is falsy for the verification gate while the score test only checks
`is not None`. -/
theorem C10_empty_answer_scores_one (p : String) (gen : Nat → Except Unit String)
    (k : Nat) (raw : String) (parsed : ParsedOutput)
    (hg : gen k = .ok raw) (hp : parse_output raw = .ok parsed)
    (ha : parsed.answer = some "") :
    attemptOutcome p gen k =
      some (⟨raw, some parsed, false, false, false, k + 1⟩, 1) := by
  unfold attemptOutcome answerFlags
  simp [hg, hp, ha]

/-- C10 witness: the theorem applied to the generator that always emits
`<answer></answer>`. -/
theorem C10_witness :
    attemptOutcome probAB genEmptyAnswer 0 =
      some (⟨"<answer></answer>",
        some ⟨none, none, none, none, none, none, some ""⟩,
        false, false, false, 1⟩, 1) :=
  C10_empty_answer_scores_one probAB genEmptyAnswer 0 "<answer></answer>"
    ⟨none, none, none, none, none, none, some ""⟩ rfl rfl rfl

end COR
